import Mathlib

/-!
Shallow embedding of `src/glass-easel-template-compiler/src/parse/mod.rs`
(the lexical/positional engine of the glass-easel template compiler).

Modelling conventions:
* A Rust `&str` is modelled as a `List Char` of Unicode scalar values.
  Byte positions are recovered through `utf8Width`/`utf8Len` (the UTF-8
  encoded size of each character); UTF-16 code-unit counts through
  `utf16Width`/`utf16Len`.
* Rust byte slicing `&s[..k]` / `&s[k..]` panics when `k` is not a char
  boundary; the model makes this explicit with `takeBytes`/`dropBytes`
  returning `Option` (`none` = the Rust code would panic).
* Counting `b'\n'` bytes in valid UTF-8 equals counting `'\n'` characters
  (0x0A is never part of a multi-byte sequence), and `str::find` of a valid
  UTF-8 needle always lands on a char boundary (UTF-8 is self-synchronizing),
  so both are modelled at the character level.
* `line` and `utf16_col` are `u32` in Rust, but the source text is capped
  below `u32::MAX` bytes, so neither counter can ever exceed `u32::MAX`;
  they are modelled as `Nat` without wrapping.
* Methods taking `&mut self` become functions `ParseState → ... × ParseState`.
-/

namespace GlassEasel

/-- UTF-8 encoded byte width of a Unicode scalar value. -/
def utf8Width (c : Char) : Nat :=
  if c.toNat < 0x80 then 1
  else if c.toNat < 0x800 then 2
  else if c.toNat < 0x10000 then 3
  else 4

/-- Byte length of the UTF-8 encoding of a string (Rust `str::len`). -/
def utf8Len (l : List Char) : Nat :=
  (l.map utf8Width).sum

/-- Number of UTF-16 code units needed for a Unicode scalar value
(Rust `char::encode_utf16(..).len()`). -/
def utf16Width (c : Char) : Nat :=
  if c.toNat < 0x10000 then 1 else 2

/-- UTF-16 code-unit length of a string (Rust `str::encode_utf16().count()`). -/
def utf16Len (l : List Char) : Nat :=
  (l.map utf16Width).sum

/-- Take the first `n` BYTES of a string as characters; `none` when `n` is
not a char boundary (where Rust slicing `&s[..n]` would panic). -/
def takeBytes : List Char → Nat → Option (List Char)
  | _, 0 => some []
  | [], _ + 1 => none
  | c :: rest, n + 1 =>
    if utf8Width c ≤ n + 1 then
      (takeBytes rest (n + 1 - utf8Width c)).map (c :: ·)
    else none

/-- Drop the first `n` BYTES of a string; `none` when `n` is not a char
boundary (where Rust slicing `&s[n..]` would panic). -/
def dropBytes : List Char → Nat → Option (List Char)
  | l, 0 => some l
  | [], _ + 1 => none
  | c :: rest, n + 1 =>
    if utf8Width c ≤ n + 1 then
      dropBytes rest (n + 1 - utf8Width c)
    else none

/-- Rust `str::starts_with(pat)`: the first argument is the needle. -/
def listStartsWith : List Char → List Char → Bool
  | [], _ => true
  | _ :: _, [] => false
  | p :: ps, c :: cs => if p = c then listStartsWith ps cs else false

/-- Rust `str::find(pat)`, at character granularity: index (in characters) of
the first occurrence of `pat` as a substring, or `none`. -/
def findSub (pat : List Char) : List Char → Option Nat
  | [] => if listStartsWith pat [] then some 0 else none
  | c :: rest =>
    if listStartsWith pat (c :: rest) then some 0
    else (findSub pat rest).map (· + 1)

/-- Rust `char::is_whitespace`: the Unicode White_Space property. -/
def isRustWhitespace (c : Char) : Bool :=
  decide (c.toNat = 0x20 ∨ (0x09 ≤ c.toNat ∧ c.toNat ≤ 0x0D) ∨ c.toNat = 0x85
    ∨ c.toNat = 0xA0 ∨ c.toNat = 0x1680 ∨ (0x2000 ≤ c.toNat ∧ c.toNat ≤ 0x200A)
    ∨ c.toNat = 0x2028 ∨ c.toNat = 0x2029 ∨ c.toNat = 0x202F ∨ c.toNat = 0x205F
    ∨ c.toNat = 0x3000)

/-- `Position` from mod.rs: a location in source code (`line`, `utf16_col`
are `u32` in Rust). -/
structure Position where
  line : Nat
  utf16_col : Nat
deriving DecidableEq, Repr

/-- `ParseErrorLevel` from mod.rs (discriminants 1..4; Rust derives `Ord`
on the discriminants). -/
inductive ParseErrorLevel where
  | Note
  | Warn
  | Error
  | Fatal
deriving DecidableEq, Repr

/-- Rust enum discriminant of `ParseErrorLevel` (`Note = 1`, then
consecutive); derived `Ord` compares these. -/
def ParseErrorLevel.toNat : ParseErrorLevel → Nat
  | .Note => 1
  | .Warn => 2
  | .Error => 3
  | .Fatal => 4

/-- `ParseErrorKind` from mod.rs, in declaration order. -/
inductive ParseErrorKind where
  | UnexpectedCharacter
  | UnexpectedExpressionCharacter
  | UnrecognizedTag
  | MissingExpressionEnd
  | IllegalEntity
  | IncompleteTag
  | MissingEndTag
  | IllegalNamePrefix
  | InvalidAttributePrefix
  | InvalidAttributeName
  | InvalidAttributeValue
  | InvalidAttribute
  | DuplicatedAttribute
  | DuplicatedName
  | AvoidUppercaseLetters
  | UnexpectedWhitespace
  | MissingAttributeValue
  | DataBindingNotAllowed
  | InvalidIdentifier
  | InvalidScopeName
  | ChildNodesNotAllowed
  | IllegalEscapeSequence
  | IncompleteConditionExpression
  | UnmatchedBracket
  | UnmatchedParenthesis
  | MissingModuleName
  | MissingSourcePath
  | UnsupportedSyntax
deriving DecidableEq, Repr

/-- Rust enum discriminant of `ParseErrorKind`: the source sets
`UnexpectedCharacter = 0x10001` and Rust assigns each following variant the
previous discriminant plus one (this is what `kind.clone() as u32` yields). -/
def ParseErrorKind.discriminant : ParseErrorKind → Nat
  | .UnexpectedCharacter => 0x10001
  | .UnexpectedExpressionCharacter => 0x10002
  | .UnrecognizedTag => 0x10003
  | .MissingExpressionEnd => 0x10004
  | .IllegalEntity => 0x10005
  | .IncompleteTag => 0x10006
  | .MissingEndTag => 0x10007
  | .IllegalNamePrefix => 0x10008
  | .InvalidAttributePrefix => 0x10009
  | .InvalidAttributeName => 0x1000A
  | .InvalidAttributeValue => 0x1000B
  | .InvalidAttribute => 0x1000C
  | .DuplicatedAttribute => 0x1000D
  | .DuplicatedName => 0x1000E
  | .AvoidUppercaseLetters => 0x1000F
  | .UnexpectedWhitespace => 0x10010
  | .MissingAttributeValue => 0x10011
  | .DataBindingNotAllowed => 0x10012
  | .InvalidIdentifier => 0x10013
  | .InvalidScopeName => 0x10014
  | .ChildNodesNotAllowed => 0x10015
  | .IllegalEscapeSequence => 0x10016
  | .IncompleteConditionExpression => 0x10017
  | .UnmatchedBracket => 0x10018
  | .UnmatchedParenthesis => 0x10019
  | .MissingModuleName => 0x1001A
  | .MissingSourcePath => 0x1001B
  | .UnsupportedSyntax => 0x1001C

/-- The 28 `ParseErrorKind` variants in declaration order. -/
def ParseErrorKind.declarationOrder : List ParseErrorKind :=
  [.UnexpectedCharacter, .UnexpectedExpressionCharacter, .UnrecognizedTag,
   .MissingExpressionEnd, .IllegalEntity, .IncompleteTag, .MissingEndTag,
   .IllegalNamePrefix, .InvalidAttributePrefix, .InvalidAttributeName,
   .InvalidAttributeValue, .InvalidAttribute, .DuplicatedAttribute,
   .DuplicatedName, .AvoidUppercaseLetters, .UnexpectedWhitespace,
   .MissingAttributeValue, .DataBindingNotAllowed, .InvalidIdentifier,
   .InvalidScopeName, .ChildNodesNotAllowed, .IllegalEscapeSequence,
   .IncompleteConditionExpression, .UnmatchedBracket, .UnmatchedParenthesis,
   .MissingModuleName, .MissingSourcePath, .UnsupportedSyntax]

/-- `ParseErrorKind::level` from mod.rs. -/
def ParseErrorKind.level : ParseErrorKind → ParseErrorLevel
  | .UnexpectedCharacter => .Fatal
  | .UnexpectedExpressionCharacter => .Fatal
  | .UnrecognizedTag => .Warn
  | .MissingExpressionEnd => .Fatal
  | .IllegalEntity => .Error
  | .IncompleteTag => .Fatal
  | .MissingEndTag => .Error
  | .IllegalNamePrefix => .Warn
  | .InvalidAttributePrefix => .Warn
  | .InvalidAttributeName => .Warn
  | .InvalidAttributeValue => .Note
  | .InvalidAttribute => .Warn
  | .DuplicatedAttribute => .Warn
  | .DuplicatedName => .Note
  | .AvoidUppercaseLetters => .Warn
  | .UnexpectedWhitespace => .Note
  | .MissingAttributeValue => .Error
  | .DataBindingNotAllowed => .Note
  | .InvalidIdentifier => .Fatal
  | .InvalidScopeName => .Note
  | .ChildNodesNotAllowed => .Error
  | .IllegalEscapeSequence => .Error
  | .IncompleteConditionExpression => .Fatal
  | .UnmatchedBracket => .Fatal
  | .UnmatchedParenthesis => .Fatal
  | .MissingModuleName => .Error
  | .MissingSourcePath => .Error
  | .UnsupportedSyntax => .Error

/-- `ParseError` from mod.rs (a diagnostic); `location` is a
`Range<Position>` modelled as a start/end pair. -/
structure ParseError where
  path : String
  kind : ParseErrorKind
  location : Position × Position
deriving DecidableEq, Repr

/-- `ParseError::level`. -/
def ParseError.level (e : ParseError) : ParseErrorLevel :=
  e.kind.level

/-- `ParseError::code`: `self.kind.clone() as u32`. -/
def ParseError.code (e : ParseError) : Nat :=
  e.kind.discriminant

/-- `ParseError::prevent_success`: `self.level() >= ParseErrorLevel::Error`,
where the derived `Ord` on `ParseErrorLevel` compares discriminants. -/
def ParseError.prevent_success (e : ParseError) : Bool :=
  decide (ParseErrorLevel.toNat .Error ≤ e.level.toNat)

/-- `ParseState` from mod.rs. `whole_str` is the borrowed source view,
`cur_index` the current BYTE offset into it. -/
structure ParseState where
  path : String
  whole_str : List Char
  cur_index : Nat
  line : Nat
  utf16_col : Nat
  scopes : List (String × (Position × Position))
  inside_dynamic_tree : Nat
  auto_skip_whitespace : Bool
  warnings : List ParseError
deriving DecidableEq, Repr

/-- `ParseState::new`. The source truncates inputs of at least `u32::MAX`
bytes by byte-slicing at `u32::MAX - 1`; that slice panics when the cut is
not a char boundary, modelled by `none`. -/
def ParseState.new (path : String) (content : List Char) : Option ParseState :=
  let truncated : Option (List Char) :=
    if 2 ^ 32 - 1 ≤ utf8Len content then takeBytes content (2 ^ 32 - 2)
    else some content
  truncated.map fun s =>
    { path := path
      whole_str := s
      cur_index := 0
      line := 1
      utf16_col := 0
      scopes := []
      inside_dynamic_tree := 0
      auto_skip_whitespace := false
      warnings := [] }

/-- `ParseState::position`. -/
def ParseState.position (s : ParseState) : Position :=
  { line := s.line, utf16_col := s.utf16_col }

/-- `ParseState::cur_str`: `&self.whole_str[self.cur_index..]`. Every state
reachable through the cursor operations keeps `cur_index` on a char
boundary; the `[]` default is only the out-of-model fallback. -/
def ParseState.cur_str (s : ParseState) : List Char :=
  (dropBytes s.whole_str s.cur_index).getD []

/-- A state whose `cur_index` sits on a char boundary of `whole_str`
(always true of states produced by the source's own operations). -/
def ParseState.valid (s : ParseState) : Prop :=
  (dropBytes s.whole_str s.cur_index).isSome = true

instance (s : ParseState) : Decidable s.valid := by
  unfold ParseState.valid
  infer_instance

/-- `ParseState::ended`. -/
def ParseState.ended (s : ParseState) : Bool :=
  s.cur_str.length = 0

/-- `ParseState::add_warning` (pushes onto the `warnings` vector). -/
def ParseState.add_warning (s : ParseState) (kind : ParseErrorKind)
    (location : Position × Position) : ParseState :=
  { s with warnings := s.warnings ++ [{ path := s.path, kind := kind, location := location }] }

/-- `ParseState::add_warning_at_current_position`. -/
def ParseState.add_warning_at_current_position (s : ParseState)
    (kind : ParseErrorKind) : ParseState :=
  s.add_warning kind (s.position, s.position)

/-- `ParseState::parse_on_auto_whitespace`: saves the toggle, sets it to
`true`, runs `f`, then unconditionally restores the saved value. -/
def ParseState.parse_on_auto_whitespace {T : Type} (s : ParseState)
    (f : ParseState → T × ParseState) : T × ParseState :=
  let prev := s.auto_skip_whitespace
  let r := f { s with auto_skip_whitespace := true }
  (r.1, { r.2 with auto_skip_whitespace := prev })

/-- `ParseState::parse_off_auto_whitespace`: saves the toggle, sets it to
`false`, runs `f`, then unconditionally restores the saved value. -/
def ParseState.parse_off_auto_whitespace {T : Type} (s : ParseState)
    (f : ParseState → T × ParseState) : T × ParseState :=
  let prev := s.auto_skip_whitespace
  let r := f { s with auto_skip_whitespace := false }
  (r.1, { r.2 with auto_skip_whitespace := prev })

/-- `ParseState::try_parse`: snapshot `cur_index`/`line`/`utf16_col`, run
`f`, restore the three fields when `f` yields `none` (warnings and all
other fields keep whatever `f` did to them). -/
def ParseState.try_parse {T : Type} (s : ParseState)
    (f : ParseState → Option T × ParseState) : Option T × ParseState :=
  let prev := s.cur_index
  let prev_line := s.line
  let prev_utf16_col := s.utf16_col
  let r := f s
  match r.1 with
  | none =>
    (none, { r.2 with cur_index := prev, line := prev_line, utf16_col := prev_utf16_col })
  | some v => (some v, r.2)

/-- `ParseState::skip_bytes`: advance `count` bytes; `line` grows by the
number of newline bytes in the skipped slice; `utf16_col` grows by the
UTF-16 length of the slice, or resets to the UTF-16 length of the part
after the slice's last newline. (`skipped.rfind('\n')` / the slice after it
is the reversed newline-free suffix.) -/
def ParseState.skip_bytes (s : ParseState) (count : Nat) : ParseState :=
  let skipped := (takeBytes s.cur_str count).getD []
  let line_wrap_count := (skipped.filter (fun c => c = '\n')).length
  let after_last := (skipped.reverse.takeWhile (fun c => ¬ (c = '\n'))).reverse
  { s with
    cur_index := s.cur_index + count
    line := s.line + line_wrap_count
    utf16_col :=
      if 0 < line_wrap_count then utf16Len after_last
      else s.utf16_col + utf16Len skipped }

/-- `ParseState::skip_until_before`: find the needle in the remaining text;
when found, return the slice before it and advance to its start; when not
found, advance to end of input and return `none`. -/
def ParseState.skip_until_before (s : ParseState) (pat : List Char) :
    Option (List Char) × ParseState :=
  match findSub pat s.cur_str with
  | some i => (some (s.cur_str.take i), s.skip_bytes (utf8Len (s.cur_str.take i)))
  | none => (none, s.skip_bytes (utf8Len s.cur_str))

/-- `ParseState::skip_until_after`. -/
def ParseState.skip_until_after (s : ParseState) (pat : List Char) :
    Option (List Char) × ParseState :=
  match s.skip_until_before pat with
  | (some v, s1) => (some v, s1.skip_bytes (utf8Len pat))
  | (none, s1) => (none, s1)

/-- One step of the `line`/`utf16_col` update both `next` and
`skip_whitespace` perform per consumed character. -/
def stepPosition (s : ParseState) (c : Char) : ParseState :=
  if c = '\n' then { s with line := s.line + 1, utf16_col := 0 }
  else { s with utf16_col := s.utf16_col + utf16Width c }

/-- `ParseState::skip_whitespace`: consume the maximal whitespace run,
updating `line`/`utf16_col` per character and `cur_index` by its byte
length; returns the skipped span when non-empty. -/
def ParseState.skip_whitespace (s : ParseState) :
    Option (Position × Position) × ParseState :=
  let ws := s.cur_str.takeWhile isRustWhitespace
  let start_pos : Option Position := if ws.isEmpty then none else some s.position
  let s1 := ws.foldl stepPosition s
  let s2 := { s1 with cur_index := s.cur_index + utf8Len ws }
  (start_pos.map fun p => (p, s2.position), s2)

/-- `ParseState::peek_chars`: skip whitespace first when the toggle is on,
then expose the remaining characters (the iterator). -/
def ParseState.peek_chars (s : ParseState) : List Char × ParseState :=
  if s.auto_skip_whitespace then
    ((s.skip_whitespace).2.cur_str, (s.skip_whitespace).2)
  else (s.cur_str, s)

/-- `ParseState::peek_n::<N>`: `none` when fewer than `N` characters remain,
otherwise the first `N` characters. -/
def ParseState.peek_n (s : ParseState) (N : Nat) :
    Option (List Char) × ParseState :=
  if N ≤ (s.peek_chars).1.length then
    (some ((s.peek_chars).1.take N), (s.peek_chars).2)
  else (none, (s.peek_chars).2)

/-- `ParseState::peek::<I>`: the character at lookahead depth `I`. -/
def ParseState.peek (s : ParseState) (I : Nat) : Option Char × ParseState :=
  ((s.peek_chars).1.get? I, (s.peek_chars).2)

/-- `ParseState::peek_str`: whitespace-skip when the toggle is on, then
test `starts_with`. -/
def ParseState.peek_str (s : ParseState) (pat : List Char) : Bool × ParseState :=
  if s.auto_skip_whitespace then
    (listStartsWith pat (s.skip_whitespace).2.cur_str, (s.skip_whitespace).2)
  else (listStartsWith pat s.cur_str, s)

/-- `ParseState::consume_str_except_followed`: match a literal unless one
of the `excepts` literals follows it; on success skip the literal and
return its span. -/
def ParseState.consume_str_except_followed (s : ParseState) (pat : List Char)
    (excepts : List (List Char)) : Option (Position × Position) × ParseState :=
  if !(s.peek_str pat).1 then (none, (s.peek_str pat).2)
  else if excepts.any (fun e =>
      listStartsWith e (((s.peek_str pat).2.cur_str).drop pat.length)) then
    (none, (s.peek_str pat).2)
  else
    (some ((s.peek_str pat).2.position,
      ((s.peek_str pat).2.skip_bytes (utf8Len pat)).position),
     (s.peek_str pat).2.skip_bytes (utf8Len pat))

/-- `ParseState::consume_str`. -/
def ParseState.consume_str (s : ParseState) (pat : List Char) :
    Option (Position × Position) × ParseState :=
  s.consume_str_except_followed pat []

/-- `ParseState::next_char_as_str`: consume one whole character (its byte
width found by probing char boundaries), or return the empty slice at end
of input. -/
def ParseState.next_char_as_str (s : ParseState) : List Char × ParseState :=
  match s.cur_str with
  | [] => ([], s)
  | c :: _ => ([c], s.skip_bytes (utf8Width c))

/-- Test fixture: the session `ParseState::new` yields for any source
shorter than `u32::MAX` bytes (no truncation applies). -/
def freshState (path src : String) : ParseState :=
  { path := path
    whole_str := src.data
    cur_index := 0
    line := 1
    utf16_col := 0
    scopes := []
    inside_dynamic_tree := 0
    auto_skip_whitespace := false
    warnings := [] }

/-- Test fixture: a speculative step that records a diagnostic and then
reports no match (for exercising `try_parse`). -/
def tpStep (s : ParseState) : Option Unit × ParseState :=
  (none, s.add_warning_at_current_position .AvoidUppercaseLetters)

/-- Test fixture: the diagnostic `tpStep` records when run on a fresh
session with path `"p"`. -/
def tpDiag : ParseError :=
  { path := "p"
    kind := .AvoidUppercaseLetters
    location := ({ line := 1, utf16_col := 0 }, { line := 1, utf16_col := 0 }) }

/-! ### Helper lemmas about the byte-level primitives -/

theorem utf8Width_pos (c : Char) : 1 ≤ utf8Width c := by
  unfold utf8Width
  split
  · omega
  split
  · omega
  split <;> omega

theorem utf8Len_nil : utf8Len [] = 0 := rfl

theorem utf8Len_cons (c : Char) (l : List Char) :
    utf8Len (c :: l) = utf8Width c + utf8Len l := by
  simp [utf8Len]

theorem utf8Len_append (a b : List Char) :
    utf8Len (a ++ b) = utf8Len a + utf8Len b := by
  simp [utf8Len]

theorem utf16Len_nil : utf16Len [] = 0 := rfl

theorem utf16Len_cons (c : Char) (l : List Char) :
    utf16Len (c :: l) = utf16Width c + utf16Len l := by
  simp [utf16Len]

theorem takeBytes_zero (l : List Char) : takeBytes l 0 = some [] := by
  cases l <;> rfl

theorem dropBytes_zero (l : List Char) : dropBytes l 0 = some l := by
  cases l <;> rfl

theorem takeBytes_cons (c : Char) (l : List Char) (n : Nat) (h : 0 < n) :
    takeBytes (c :: l) n =
      if utf8Width c ≤ n then (takeBytes l (n - utf8Width c)).map (c :: ·)
      else none := by
  cases n with
  | zero => omega
  | succ m => rfl

theorem dropBytes_cons (c : Char) (l : List Char) (n : Nat) (h : 0 < n) :
    dropBytes (c :: l) n =
      if utf8Width c ≤ n then dropBytes l (n - utf8Width c) else none := by
  cases n with
  | zero => omega
  | succ m => rfl

theorem takeBytes_append_exact (pre post : List Char) :
    takeBytes (pre ++ post) (utf8Len pre) = some pre := by
  induction pre with
  | nil => rw [List.nil_append, utf8Len_nil, takeBytes_zero]
  | cons c rest ih =>
    have hw := utf8Width_pos c
    have hlen := utf8Len_cons c rest
    rw [List.cons_append, takeBytes_cons c _ _ (by omega), if_pos (by omega)]
    have he : utf8Len (c :: rest) - utf8Width c = utf8Len rest := by omega
    rw [he, ih]
    rfl

theorem dropBytes_append_exact (pre post : List Char) :
    dropBytes (pre ++ post) (utf8Len pre) = some post := by
  induction pre with
  | nil => rw [List.nil_append, utf8Len_nil, dropBytes_zero]
  | cons c rest ih =>
    have hw := utf8Width_pos c
    have hlen := utf8Len_cons c rest
    rw [List.cons_append, dropBytes_cons c _ _ (by omega), if_pos (by omega)]
    have he : utf8Len (c :: rest) - utf8Width c = utf8Len rest := by omega
    rw [he, ih]

theorem dropBytes_add (l : List Char) (a b : Nat) (m : List Char)
    (h : dropBytes l a = some m) : dropBytes l (a + b) = dropBytes m b := by
  induction l generalizing a with
  | nil =>
    cases a with
    | zero =>
      simp only [dropBytes, Option.some.injEq] at h
      subst h
      simp [Nat.zero_add]
    | succ k => simp [dropBytes] at h
  | cons c rest ih =>
    cases a with
    | zero =>
      simp only [dropBytes, Option.some.injEq] at h
      subst h
      simp [Nat.zero_add]
    | succ k =>
      rw [dropBytes_cons c _ _ (by omega)] at h
      by_cases hc : utf8Width c ≤ k + 1
      · rw [if_pos hc] at h
        rw [dropBytes_cons c _ _ (by omega), if_pos (by omega)]
        have he : k + 1 + b - utf8Width c = (k + 1 - utf8Width c) + b := by omega
        rw [he]
        exact ih (k + 1 - utf8Width c) h
      · rw [if_neg hc] at h
        exact absurd h (by simp)

theorem listStartsWith_iff (pat l : List Char) :
    listStartsWith pat l = true ↔ ∃ t, l = pat ++ t := by
  induction pat generalizing l with
  | nil =>
    simp [listStartsWith]
  | cons p ps ih =>
    cases l with
    | nil =>
      simp [listStartsWith]
    | cons c cs =>
      rw [listStartsWith]
      by_cases h : p = c
      · subst h
        rw [if_pos rfl, ih]
        constructor
        · rintro ⟨t, rfl⟩
          exact ⟨t, rfl⟩
        · rintro ⟨t, ht⟩
          rw [List.cons_append] at ht
          exact ⟨t, (List.cons.injEq _ _ _ _).mp ht |>.2⟩
      · rw [if_neg h]
        constructor
        · intro hf
          exact absurd hf (by simp)
        · rintro ⟨t, ht⟩
          rw [List.cons_append] at ht
          exact absurd ((List.cons.injEq _ _ _ _).mp ht).1.symm h

theorem findSub_eq_some (pat l : List Char) (i : Nat)
    (h1 : listStartsWith pat (l.drop i) = true)
    (h2 : ∀ j, j < i → listStartsWith pat (l.drop j) = false) :
    findSub pat l = some i := by
  induction l generalizing i with
  | nil =>
    cases i with
    | zero =>
      rw [findSub, if_pos (by simpa using h1)]
    | succ k =>
      have h0 := h2 0 (Nat.succ_pos k)
      simp only [List.drop_zero] at h0
      simp only [List.drop_nil] at h1
      rw [h0] at h1
      simp at h1
  | cons c rest ih =>
    cases i with
    | zero =>
      rw [findSub, if_pos (by simpa using h1)]
    | succ k =>
      have h0 : listStartsWith pat (c :: rest) = false := by
        simpa using h2 0 (Nat.succ_pos k)
      rw [findSub, h0]
      simp only [Bool.false_eq_true, if_false]
      rw [ih k (by simpa using h1) (fun j hj => by simpa using h2 (j + 1) (by omega))]
      rfl

theorem findSub_eq_none (pat l : List Char)
    (h : ∀ j, j ≤ l.length → listStartsWith pat (l.drop j) = false) :
    findSub pat l = none := by
  induction l with
  | nil =>
    rw [findSub]
    rw [show listStartsWith pat [] = false by simpa using h 0 (by simp)]
    simp
  | cons c rest ih =>
    rw [findSub]
    rw [show listStartsWith pat (c :: rest) = false by simpa using h 0 (by simp)]
    simp only [Bool.false_eq_true, if_false]
    rw [ih (fun j hj => by simpa using h (j + 1) (by simp; omega))]
    rfl

theorem takeWhile_append_of (p : Char → Bool) (l1 : List Char) (y : Char)
    (l2 : List Char) (h1 : ∀ x ∈ l1, p x = true) (h2 : p y = false) :
    (l1 ++ y :: l2).takeWhile p = l1 := by
  induction l1 with
  | nil => simp [List.takeWhile_cons, h2]
  | cons a rest ih =>
    rw [List.cons_append, List.takeWhile_cons, h1 a (by simp), if_pos rfl,
      ih (fun x hx => h1 x (by simp [hx]))]

theorem count_eq_filter_length (l : List Char) (a : Char) :
    l.count a = (l.filter (fun c => c = a)).length := by
  induction l with
  | nil => rfl
  | cons c rest ih =>
    by_cases h : c = a
    · subst h
      simp [List.count_cons, List.filter_cons, ih]
    · simp [List.count_cons, List.filter_cons, h, ih, Ne.symm h]

theorem utf8Len_replicate (k : Nat) (c : Char) :
    utf8Len (List.replicate k c) = k * utf8Width c := by
  induction k with
  | zero => simp [utf8Len]
  | succ n ih =>
    rw [List.replicate_succ, utf8Len_cons, ih]
    ring

theorem valid_cur_str (s : ParseState) (h : s.valid) :
    dropBytes s.whole_str s.cur_index = some s.cur_str := by
  unfold ParseState.valid at h
  unfold ParseState.cur_str
  cases hd : dropBytes s.whole_str s.cur_index with
  | none => rw [hd] at h; simp at h
  | some x => simp

theorem skip_bytes_cur_str (s : ParseState) (pre post : List Char)
    (hv : s.valid) (h : s.cur_str = pre ++ post) :
    (s.skip_bytes (utf8Len pre)).cur_str = post := by
  have h1 := valid_cur_str s hv
  have h2 : dropBytes s.whole_str (s.cur_index + utf8Len pre) = some post := by
    rw [dropBytes_add _ _ _ _ h1, h, dropBytes_append_exact]
  unfold ParseState.skip_bytes ParseState.cur_str
  simp [h2]

/-! ### Claim theorems -/

/-- C2: for every source text, starting cursor state and step function, if
the step returns the no-match signal then `try_parse` restores the byte
offset, line and UTF-16 column bit-for-bit, while every diagnostic the step
appended during the failed attempt is still present (diagnostics are not
rolled back). -/
theorem c2_try_parse_restores_cursor_keeps_diagnostics {T : Type}
    (st : ParseState) (f : ParseState → Option T × ParseState)
    (appended : List ParseError)
    (hfail : (f st).1 = none)
    (happ : (f st).2.warnings = st.warnings ++ appended) :
    (st.try_parse f).2.cur_index = st.cur_index ∧
    (st.try_parse f).2.line = st.line ∧
    (st.try_parse f).2.utf16_col = st.utf16_col ∧
    (st.try_parse f).2.warnings = (f st).2.warnings ∧
    ∀ d ∈ appended, d ∈ (st.try_parse f).2.warnings := by
  have hT : st.try_parse f = (none,
      { (f st).2 with
          cur_index := st.cur_index
          line := st.line
          utf16_col := st.utf16_col }) := by
    unfold ParseState.try_parse
    simp only [hfail]
  rw [hT]
  refine ⟨rfl, rfl, rfl, rfl, ?_⟩
  intro d hd
  show d ∈ (f st).2.warnings
  rw [happ]
  exact List.mem_append_right _ hd

/-- C3: `skip_bytes` advancing over a character-aligned slice `pre`
increases the byte offset by the slice's byte length, increases `line` by
the number of newline bytes in `pre`, and either adds the UTF-16 code-unit
length of `pre` to the column (no newline in `pre`) or resets the column
to the UTF-16 length of the part of `pre` after its last newline. -/
theorem c3_skip_bytes_updates_position (st : ParseState) (pre post : List Char)
    (h : st.cur_str = pre ++ post) :
    (st.skip_bytes (utf8Len pre)).cur_index = st.cur_index + utf8Len pre ∧
    (st.skip_bytes (utf8Len pre)).line = st.line + pre.count '\n' ∧
    (¬ '\n' ∈ pre →
      (st.skip_bytes (utf8Len pre)).utf16_col = st.utf16_col + utf16Len pre) ∧
    (∀ a b, pre = a ++ '\n' :: b → ¬ '\n' ∈ b →
      (st.skip_bytes (utf8Len pre)).utf16_col = utf16Len b) := by
  have hsk : (takeBytes st.cur_str (utf8Len pre)).getD [] = pre := by
    rw [h, takeBytes_append_exact]
    rfl
  refine ⟨rfl, ?_, ?_, ?_⟩
  · show st.line + ((takeBytes st.cur_str (utf8Len pre)).getD []
      |>.filter (fun c => c = '\n')).length = st.line + pre.count '\n'
    rw [hsk, count_eq_filter_length]
  · intro hn
    show (if 0 < ((takeBytes st.cur_str (utf8Len pre)).getD []
        |>.filter (fun c => c = '\n')).length then _ else _) = _
    rw [hsk]
    have hf : pre.filter (fun c => c = '\n') = [] := by
      rw [List.filter_eq_nil_iff]
      intro a ha
      simp only [decide_eq_true_eq]
      intro hc
      exact hn (hc ▸ ha)
    rw [hf]
    simp
  · intro a b hab hb
    show (if 0 < ((takeBytes st.cur_str (utf8Len pre)).getD []
        |>.filter (fun c => c = '\n')).length then
          utf16Len (((takeBytes st.cur_str (utf8Len pre)).getD []
            |>.reverse.takeWhile (fun c => ¬ (c = '\n'))).reverse)
        else _) = _
    rw [hsk, hab]
    have hmem : '\n' ∈ (a ++ '\n' :: b).filter (fun c => c = '\n') := by
      rw [List.mem_filter]
      exact ⟨by simp, by simp⟩
    rw [if_pos (List.length_pos.mpr (List.ne_nil_of_mem hmem))]
    have hrev : (a ++ '\n' :: b).reverse = b.reverse ++ '\n' :: a.reverse := by
      simp
    rw [hrev, takeWhile_append_of _ _ _ _ ?_ (by simp)]
    · rw [List.reverse_reverse]
    · intro x hx
      simp only [decide_eq_true_eq]
      intro hc
      exact hb (hc ▸ (List.mem_reverse.mp hx))

/-- C3 witness: skipping the line prefix `"a😀"` (a non-BMP character on the
line) advances the column by its UTF-16 length 3, not its character count 2
and not its byte count 5. -/
theorem c3_skip_bytes_updates_position_witness :
    ((freshState "p" "a😀xyz").skip_bytes (utf8Len "a😀".data)).utf16_col =
      (freshState "p" "a😀xyz").utf16_col + utf16Len "a😀".data :=
  (c3_skip_bytes_updates_position (freshState "p" "a😀xyz") "a😀".data
    "xyz".data (by decide)).2.2.1 (by decide)

/-- C10: `parse_on_auto_whitespace` runs its callback with the whitespace
auto-skip toggle set to `true`, `parse_off_auto_whitespace` with it set to
`false`, and both return the callback's result unchanged while restoring
the toggle to its pre-call value whatever the callback did to it. -/
theorem c10_auto_whitespace_scoped {T : Type} (st : ParseState)
    (f : ParseState → T × ParseState) :
    st.parse_on_auto_whitespace f =
      ((f { st with auto_skip_whitespace := true }).1,
       { (f { st with auto_skip_whitespace := true }).2 with
          auto_skip_whitespace := st.auto_skip_whitespace }) ∧
    st.parse_off_auto_whitespace f =
      ((f { st with auto_skip_whitespace := false }).1,
       { (f { st with auto_skip_whitespace := false }).2 with
          auto_skip_whitespace := st.auto_skip_whitespace }) ∧
    (st.parse_on_auto_whitespace f).2.auto_skip_whitespace =
      st.auto_skip_whitespace ∧
    (st.parse_off_auto_whitespace f).2.auto_skip_whitespace =
      st.auto_skip_whitespace :=
  ⟨rfl, rfl, rfl, rfl⟩

/-- C2 witness: a step that records one diagnostic and reports no match on
a fresh session leaves the cursor fields intact and keeps the diagnostic. -/
theorem c2_try_parse_restores_cursor_keeps_diagnostics_witness :
    ((freshState "p" "ab").try_parse tpStep).2.cur_index =
      (freshState "p" "ab").cur_index ∧
    ((freshState "p" "ab").try_parse tpStep).2.line = (freshState "p" "ab").line ∧
    ((freshState "p" "ab").try_parse tpStep).2.utf16_col =
      (freshState "p" "ab").utf16_col ∧
    ((freshState "p" "ab").try_parse tpStep).2.warnings =
      (tpStep (freshState "p" "ab")).2.warnings ∧
    ∀ d ∈ [tpDiag], d ∈ ((freshState "p" "ab").try_parse tpStep).2.warnings :=
  c2_try_parse_restores_cursor_keeps_diagnostics (freshState "p" "ab") tpStep
    [tpDiag] rfl (by decide)

/-- C4: with whitespace auto-skip off, consuming `"\x7b\x7b"` with
forbidden-follow-set `["\x7b"]` fails on remaining input `"\x7b\x7b\x7b"` leaving the
state untouched, and succeeds on `"\x7b\x7bx"` advancing the byte offset by
exactly 2 and returning the consumed token's span. -/
theorem c4_consume_str_negative_lookahead (st st2 : ParseState)
    (hws : st.auto_skip_whitespace = false) (h1 : st.cur_str = "\x7b\x7b\x7b".data)
    (hws2 : st2.auto_skip_whitespace = false) (h2 : st2.cur_str = "\x7b\x7bx".data) :
    st.consume_str_except_followed "\x7b\x7b".data ["\x7b".data] = (none, st) ∧
    (st2.consume_str_except_followed "\x7b\x7b".data ["\x7b".data]).1 =
      some (st2.position, { line := st2.line, utf16_col := st2.utf16_col + 2 }) ∧
    (st2.consume_str_except_followed "\x7b\x7b".data ["\x7b".data]).2.cur_index =
      st2.cur_index + 2 := by
  have e1 : listStartsWith "\x7b\x7b".data "\x7b\x7b\x7b".data = true := by decide
  have e2 : listStartsWith "\x7b".data ("\x7b\x7b\x7b".data.drop "\x7b\x7b".data.length) = true := by
    decide
  have e3 : listStartsWith "\x7b\x7b".data "\x7b\x7bx".data = true := by decide
  have e4 : listStartsWith "\x7b".data ("\x7b\x7bx".data.drop "\x7b\x7b".data.length) = false := by
    decide
  have hp1 : st.peek_str "\x7b\x7b".data = (true, st) := by
    unfold ParseState.peek_str
    rw [hws, if_neg (by simp), h1, e1]
  have hp2 : st2.peek_str "\x7b\x7b".data = (true, st2) := by
    unfold ParseState.peek_str
    rw [hws2, if_neg (by simp), h2, e3]
  have htake : (takeBytes st2.cur_str (utf8Len "\x7b\x7b".data)).getD [] = "\x7b\x7b".data := by
    rw [show "\x7b\x7bx".data = "\x7b\x7b".data ++ "x".data by decide] at h2
    rw [h2, takeBytes_append_exact]
    rfl
  have hc1 : st.consume_str_except_followed "\x7b\x7b".data ["\x7b".data] = (none, st) := by
    unfold ParseState.consume_str_except_followed
    rw [hp1]
    simp only [Bool.not_true, Bool.false_eq_true, if_false, h1, e2,
      List.any_cons, List.any_nil, Bool.or_false, if_true]
  have hc2 : st2.consume_str_except_followed "\x7b\x7b".data ["\x7b".data] =
      (some (st2.position, (st2.skip_bytes (utf8Len "\x7b\x7b".data)).position),
       st2.skip_bytes (utf8Len "\x7b\x7b".data)) := by
    unfold ParseState.consume_str_except_followed
    rw [hp2]
    simp only [Bool.not_true, Bool.false_eq_true, if_false, h2, e4,
      List.any_cons, List.any_nil, Bool.or_false]
  refine ⟨hc1, ?_, ?_⟩
  · rw [hc2]
    show some (st2.position, (st2.skip_bytes (utf8Len "\x7b\x7b".data)).position) = _
    unfold ParseState.skip_bytes ParseState.position
    simp only [htake]
    have hz : (("\x7b\x7b".data.filter (fun c => c = '\n'))).length = 0 := by decide
    have hu : utf16Len "\x7b\x7b".data = 2 := by decide
    simp [hz, hu]
  · rw [hc2]
    show st2.cur_index + utf8Len "\x7b\x7b".data = st2.cur_index + 2
    rfl

/-- C4 witness: the two scenarios instantiated on fresh sessions over the
sources `"\x7b\x7b\x7b"` and `"\x7b\x7bx"`. -/
theorem c4_consume_str_negative_lookahead_witness :
    (freshState "p" "\x7b\x7b\x7b").consume_str_except_followed "\x7b\x7b".data ["\x7b".data] =
      (none, freshState "p" "\x7b\x7b\x7b") ∧
    ((freshState "p" "\x7b\x7bx").consume_str_except_followed "\x7b\x7b".data ["\x7b".data]).1 =
      some ((freshState "p" "\x7b\x7bx").position,
        { line := (freshState "p" "\x7b\x7bx").line,
          utf16_col := (freshState "p" "\x7b\x7bx").utf16_col + 2 }) ∧
    ((freshState "p" "\x7b\x7bx").consume_str_except_followed "\x7b\x7b".data ["\x7b".data]).2.cur_index =
      (freshState "p" "\x7b\x7bx").cur_index + 2 :=
  c4_consume_str_negative_lookahead (freshState "p" "\x7b\x7b\x7b") (freshState "p" "\x7b\x7bx")
    rfl (by decide) rfl (by decide)

/-- C5: the severity mapping is total on the 28 `ParseErrorKind`s — every
kind has exactly one of the four levels — and a diagnostic prevents
successful compilation exactly when its level is `Error` or `Fatal`. -/
theorem c5_severity_total_and_prevent_success :
    (∀ k : ParseErrorKind, k.level = .Note ∨ k.level = .Warn ∨
      k.level = .Error ∨ k.level = .Fatal) ∧
    (∀ e : ParseError, e.prevent_success = true ↔
      (e.level = .Error ∨ e.level = .Fatal)) := by
  constructor
  · intro k
    cases k <;> simp [ParseErrorKind.level]
  · intro e
    unfold ParseError.prevent_success ParseError.level
    cases e.kind.level <;> decide

/-- C6: with whitespace auto-skip off, `peek_n` requesting more characters
than remain returns no match without touching the state, and
`next_char_as_str` at end of input returns the empty slice and leaves the
state unchanged. -/
theorem c6_end_of_input_safe (st st2 : ParseState) (N : Nat)
    (hws : st.auto_skip_whitespace = false) (hn : st.cur_str.length < N)
    (h2 : st2.cur_str = []) :
    st.peek_n N = (none, st) ∧ st2.next_char_as_str = ([], st2) := by
  have hpc : st.peek_chars = (st.cur_str, st) := by
    unfold ParseState.peek_chars
    rw [hws, if_neg (by simp)]
  constructor
  · unfold ParseState.peek_n
    rw [hpc]
    show (if N ≤ st.cur_str.length then (some (st.cur_str.take N), st)
      else (none, st)) = (none, st)
    rw [if_neg (by omega)]
  · unfold ParseState.next_char_as_str
    simp only [h2]

/-- C6 witness: `peek_n 5` on the 2-character remainder `"ab"`, and
`next_char_as_str` on a session whose cursor is at end of input. -/
theorem c6_end_of_input_safe_witness :
    (freshState "p" "ab").peek_n 5 = (none, freshState "p" "ab") ∧
    ({ freshState "p" "ab" with cur_index := 2 } : ParseState).next_char_as_str =
      ([], { freshState "p" "ab" with cur_index := 2 }) :=
  c6_end_of_input_safe (freshState "p" "ab")
    { freshState "p" "ab" with cur_index := 2 } 5 rfl (by decide) (by decide)

/-- C7: when the delimiter occurs in the remaining text (first occurrence
at character index `i`), `skip_until_before` returns the slice strictly
before it and leaves the cursor exactly at the start of the occurrence;
when it does not occur, it returns the no-match signal and skips the whole
remaining text, ending at end of input. -/
theorem c7_skip_until_before_correct (st : ParseState) (pat : List Char)
    (hv : st.valid) :
    (∀ i, listStartsWith pat (st.cur_str.drop i) = true →
      (∀ j, j < i → listStartsWith pat (st.cur_str.drop j) = false) →
      (st.skip_until_before pat).1 = some (st.cur_str.take i) ∧
      (st.skip_until_before pat).2.cur_index =
        st.cur_index + utf8Len (st.cur_str.take i) ∧
      (st.skip_until_before pat).2.cur_str = st.cur_str.drop i) ∧
    ((∀ j, j ≤ st.cur_str.length →
        listStartsWith pat (st.cur_str.drop j) = false) →
      (st.skip_until_before pat).1 = none ∧
      (st.skip_until_before pat).2.cur_str = [] ∧
      (st.skip_until_before pat).2.cur_index =
        st.cur_index + utf8Len st.cur_str) := by
  constructor
  · intro i hocc hfirst
    have hf : findSub pat st.cur_str = some i := findSub_eq_some _ _ _ hocc hfirst
    have he : st.skip_until_before pat =
        (some (st.cur_str.take i),
         st.skip_bytes (utf8Len (st.cur_str.take i))) := by
      unfold ParseState.skip_until_before
      rw [hf]
    rw [he]
    exact ⟨rfl, rfl,
      skip_bytes_cur_str st _ _ hv (List.take_append_drop i st.cur_str).symm⟩
  · intro hno
    have hf : findSub pat st.cur_str = none := findSub_eq_none _ _ hno
    have he : st.skip_until_before pat =
        (none, st.skip_bytes (utf8Len st.cur_str)) := by
      unfold ParseState.skip_until_before
      rw [hf]
    rw [he]
    exact ⟨rfl, skip_bytes_cur_str st st.cur_str [] hv (by simp), rfl⟩

/-- C7 witness: the delimiter `"\x7b\x7b"` is found at index 2 of `"ab\x7b\x7bcd"`
(slice `"ab"` returned, cursor left on the delimiter), and is not found in
`"abc"` (no-match signal, cursor at end of input). -/
theorem c7_skip_until_before_correct_witness :
    ((freshState "p" "ab\x7b\x7bcd").skip_until_before "\x7b\x7b".data).1 =
      some ((freshState "p" "ab\x7b\x7bcd").cur_str.take 2) ∧
    ((freshState "p" "ab\x7b\x7bcd").skip_until_before "\x7b\x7b".data).2.cur_str =
      (freshState "p" "ab\x7b\x7bcd").cur_str.drop 2 ∧
    ((freshState "q" "abc").skip_until_before "\x7b\x7b".data).1 = none ∧
    ((freshState "q" "abc").skip_until_before "\x7b\x7b".data).2.cur_str = [] :=
  ⟨((c7_skip_until_before_correct (freshState "p" "ab\x7b\x7bcd") "\x7b\x7b".data
      (by decide)).1 2 (by decide) (by decide)).1,
   ((c7_skip_until_before_correct (freshState "p" "ab\x7b\x7bcd") "\x7b\x7b".data
      (by decide)).1 2 (by decide) (by decide)).2.2,
   ((c7_skip_until_before_correct (freshState "q" "abc") "\x7b\x7b".data
      (by decide)).2 (by decide)).1,
   ((c7_skip_until_before_correct (freshState "q" "abc") "\x7b\x7b".data
      (by decide)).2 (by decide)).2.1⟩

/-- C9: a diagnostic's numeric code is a function of its kind alone, the
first kind `UnexpectedCharacter` has code 0x10001, and the 28 kinds in
declaration order carry the consecutive codes 0x10001 .. 0x1001C. -/
theorem c9_error_codes_consecutive :
    (∀ e : ParseError, e.code = e.kind.discriminant) ∧
    ParseErrorKind.UnexpectedCharacter.discriminant = 0x10001 ∧
    ParseErrorKind.declarationOrder.map ParseErrorKind.discriminant =
      List.range' 0x10001 28 ∧
    ParseErrorKind.declarationOrder.length = 28 ∧
    ∀ k : ParseErrorKind, k ∈ ParseErrorKind.declarationOrder := by
  refine ⟨fun e => rfl, rfl, by decide, by decide, ?_⟩
  intro k
  cases k <;> decide

/-- C1 (evaluating the code on the claim's scenario): the session the
source constructs for `"  abc\x7b\x7buntil\x7d\x7d"` starts with `line = 1` (the
source initializes `line` to 1, while `Display` renders `line + 1`, i.e.
it assumes a zero-based `line`); `skip_until_before("\x7b\x7b")` returns
`"  abc"` and leaves the cursor at the start of `"\x7b\x7buntil\x7d\x7d"` at UTF-16
column 5 — but on `line = 1`, not the claimed line 0. -/
theorem c1_fresh_session_scenario_eval :
    ParseState.new "TEST" "  abc\x7b\x7buntil\x7d\x7d".data =
      some (freshState "TEST" "  abc\x7b\x7buntil\x7d\x7d") ∧
    (freshState "TEST" "  abc\x7b\x7buntil\x7d\x7d").line = 1 ∧
    ((freshState "TEST" "  abc\x7b\x7buntil\x7d\x7d").skip_until_before "\x7b\x7b".data).1 =
      some "  abc".data ∧
    ((freshState "TEST" "  abc\x7b\x7buntil\x7d\x7d").skip_until_before "\x7b\x7b".data).2.cur_str =
      "\x7b\x7buntil\x7d\x7d".data ∧
    ((freshState "TEST" "  abc\x7b\x7buntil\x7d\x7d").skip_until_before "\x7b\x7b".data).2.utf16_col = 5 ∧
    ((freshState "TEST" "  abc\x7b\x7buntil\x7d\x7d").skip_until_before "\x7b\x7b".data).2.line = 1 := by
  refine ⟨by decide, rfl, by decide, by decide, by decide, by decide⟩

/-- Supporting fact for C8: byte-taking an amount `n` with `n % 4 = 2` out
of a run of 4-byte characters never lands on a char boundary. -/
theorem takeBytes_replicate_emoji (k : Nat) : ∀ n, n % 4 = 2 → n ≤ 4 * k →
    takeBytes (List.replicate k '😀') n = none := by
  induction k with
  | zero =>
    intro n hm hle
    omega
  | succ m ih =>
    intro n hm hle
    have hw : utf8Width '😀' = 4 := by decide
    rw [List.replicate_succ, takeBytes_cons _ _ _ (by omega), hw]
    by_cases hc : 4 ≤ n
    · rw [if_pos hc, ih (n - 4) (by omega) (by omega)]
      rfl
    · rw [if_neg hc]

/-- C8 (evaluating the code on the failing input): a source of 2^31 copies
of U+1F600 is 2^33 bytes long, so truncation byte-slices at
`u32::MAX - 1 = 2^32 - 2`, which is not a char boundary (it falls inside a
4-byte character since `2^32 - 2 ≡ 2 (mod 4)`): session construction fails
(the Rust byte slice panics) instead of truncating. -/
theorem c8_new_truncation_not_boundary :
    ParseState.new "x" (List.replicate (2 ^ 31) '😀') = none := by
  have hw : utf8Width '😀' = 4 := by decide
  have hlen : utf8Len (List.replicate (2 ^ 31) '😀') = 2 ^ 33 := by
    rw [utf8Len_replicate, hw]
    norm_num
  unfold ParseState.new
  simp only [hlen]
  rw [if_pos (by norm_num)]
  rw [takeBytes_replicate_emoji (2 ^ 31) (2 ^ 32 - 2) (by norm_num) (by norm_num)]
  rfl

end GlassEasel
